/-
Verification of the node-to-DNS synchronization pipeline of
kubernetes-cloudflare-sync (src/main.go).

The development shallowly embeds the `resync` closure and its helpers:
node readiness (`nodeIsReady`, main.go:178-186), IP aggregation
(main.go:123-147), the change detector (main.go:115, 149-153) and the
invocation of `sync` (main.go:155-158).  Kubernetes node objects are
modelled by the fields `resync` actually reads: the typed status
addresses and the status conditions.  Address strings, address types,
condition types and condition statuses are opaque strings, exactly as
the Go code compares them.
-/
import Mathlib

namespace CloudflareSync

/-- One entry of `node.Status.Addresses`: a typed address
(`core_v1.NodeAddress`). -/
structure NodeAddress where
  type : String
  address : String
deriving DecidableEq, Repr

/-- One entry of `node.Status.Conditions` (`core_v1.NodeCondition`),
restricted to the two fields `nodeIsReady` reads. -/
structure NodeCondition where
  type : String
  status : String
deriving DecidableEq, Repr

/-- A node, restricted to the status fields `resync` reads. -/
structure Node where
  addresses : List NodeAddress
  conditions : List NodeCondition
deriving DecidableEq, Repr

/-- `core_v1.NodeExternalIP`. -/
def NodeExternalIP : String := "ExternalIP"

/-- `core_v1.NodeInternalIP`. -/
def NodeInternalIP : String := "InternalIP"

/-- `core_v1.NodeReady`. -/
def NodeReady : String := "Ready"

/-- `core_v1.ConditionTrue`. -/
def ConditionTrue : String := "True"

/-- main.go:178-186: a node is ready when some status condition has
type `Ready` with status `True`; the Go loop returns `true` at the
first such condition and `false` when none exists. -/
def nodeIsReady (node : Node) : Bool :=
  node.conditions.any fun condition =>
    condition.type == NodeReady && condition.status == ConditionTrue

/-- The addresses of one node whose type equals `t`, in status order --
the inner loop body of main.go:127-131 and main.go:138-142. -/
def nodeAddrsOfType (node : Node) (t : String) : List String :=
  (node.addresses.filter fun addr => addr.type == t).map fun addr => addr.address

/-- One collection phase of `resync` (main.go:125-133 and 136-144):
for each node in order, if the node is ready, append its addresses of
type `t` in order. -/
def collectAddrs (nodes : List Node) (t : String) : List String :=
  nodes.flatMap fun node => if nodeIsReady node then nodeAddrsOfType node t else []

/-- The two configuration flags the aggregation reads:
`options.SkipExternalIP` and `options.UseInternalIP`. -/
structure Policy where
  skipExternal : Bool
  useInternal : Bool
deriving DecidableEq, Repr

/-- The `ips` slice as built by main.go:123-145, before sorting:
external addresses of ready nodes unless `SkipExternalIP`
(main.go:124-134), then, if `UseInternalIP` and the slice is still
empty, the internal addresses of ready nodes are appended to it
(main.go:135-145). -/
def collectedIPs (nodes : List Node) (p : Policy) : List String :=
  let ips := if !p.skipExternal then collectAddrs nodes NodeExternalIP else []
  if p.useInternal && ips.length == 0 then
    ips ++ collectAddrs nodes NodeInternalIP
  else ips

/-- Lexicographic comparison of char lists by code point, the order
`sort.Strings` sorts by (byte order and code-point order agree on the
ASCII addresses at hand). -/
def lexLe : List Char → List Char → Bool
  | [], _ => true
  | _ :: _, [] => false
  | a :: as, b :: bs => if a < b then true else if b < a then false else lexLe as bs

/-- The string order used by `sort.Strings` (main.go:147). -/
def StrLe (a b : String) : Prop := lexLe a.data b.data = true

instance : DecidableRel StrLe := fun _ _ => inferInstanceAs (Decidable (_ = true))

/-- `sort.Strings(ips)` (main.go:147): Go's sort produces the sorted
permutation of its input, which for a total order on strings is the
insertion sort of the list. -/
def sortStrings (l : List String) : List String :=
  l.insertionSort StrLe

/-- The aggregation step of `resync` (main.go:123-147): collect, then
sort in place. -/
def aggregateIPs (nodes : List Node) (p : Policy) : List String :=
  sortStrings (collectedIPs nodes p)

/-- `strings.Join(l, ",")` (main.go:149). -/
def joinComma (l : List String) : String :=
  String.intercalate "," l

/-- The cross-pass state of the pipeline: the `lastIPs` variable
(main.go:115).  Its Go zero value is the nil slice, which joins to the
empty string. -/
structure SyncState where
  lastIPs : List String
deriving DecidableEq, Repr

/-- `var lastIPs []string` (main.go:115): the state at process start. -/
def initialState : SyncState := ⟨[]⟩

/-- One invocation of the `resync` closure (main.go:116-159).

`listResult` is the outcome of `lister.List(nodeSelector)`
(main.go:118): `some nodes` on success, `none` when the lister returns
an error, in which case the Go code logs the error and falls through to
the rest of the function with the nil `nodes` slice (main.go:119-121
has no `return`).

`syncOk` abstracts the `sync` call of main.go:155: given the ips it is
invoked with, it reports whether the call succeeded.  Its result is
only logged by the Go code (main.go:156-158) and never affects state.

The returned pair is the updated state together with `none` when the
pass returned at main.go:151 without invoking `sync`, and
`some (ips, ok)` when `sync` was invoked with `ips` and returned
success `ok`. -/
def resync (p : Policy) (listResult : Option (List Node))
    (syncOk : List String → Bool) (st : SyncState) :
    SyncState × Option (List String × Bool) :=
  let nodes := listResult.getD []
  let ips := aggregateIPs nodes p
  if joinComma ips == joinComma st.lastIPs then
    (st, none)
  else
    ({ lastIPs := ips }, some (ips, syncOk ips))

/-- The event loop (main.go:161-173): every watch event triggers one
`resync` pass; passes run serially.  Returns the final state and the
list of `sync` invocations made, in order. -/
def runResync (p : Policy) (syncOk : List String → Bool) :
    List (Option (List Node)) → SyncState → SyncState × List (List String × Bool)
  | [], st => (st, [])
  | e :: es, st =>
    match resync p e syncOk st with
    | (st1, none) => runResync p syncOk es st1
    | (st1, some call) =>
      let (st2, calls) := runResync p syncOk es st1
      (st2, call :: calls)

/-- A provider address record, with the fields the reconciliation
reads: identity, content (address string), ttl and proxy flag. -/
structure ProviderRecord where
  id : String
  content : String
  ttl : Nat
  proxied : Bool
deriving DecidableEq, Repr

/-- One reconciliation operation against the provider. -/
inductive DnsOp where
  | delete (recordId : String)
  | create (content : String)
  | update (recordId : String)
deriving DecidableEq, Repr

/-- Modelled from the spec: the `sync` function invoked at main.go:155
is not part of src/ (only main.go is), so the per-name reconciliation
plan is taken from the spec, section 4.3: `toCreate = desiredSet −
existingContents`, `toDelete = existingContents − desiredSet`,
`toUpdate = records present in both sets whose ttl or proxy flag
differs from the configured values`, applied in the order deletes,
then creates, then metadata updates. -/
def reconcilePlan (desired : List String) (existing : List ProviderRecord)
    (ttl : Nat) (proxied : Bool) : List DnsOp :=
  let existingContents := existing.map fun r => r.content
  let toDelete := existing.filter fun r => !desired.contains r.content
  let toCreate := desired.filter fun c => !existingContents.contains c
  let toUpdate := existing.filter fun r =>
    desired.contains r.content && (r.ttl != ttl || r.proxied != proxied)
  (toDelete.map fun r => DnsOp.delete r.id) ++
    (toCreate.map fun c => DnsOp.create c) ++
    (toUpdate.map fun r => DnsOp.update r.id)

/-- A node that is ready (one `Ready`/`True` condition) and carries the
single external address `a`. -/
def extNode (a : String) : Node :=
  ⟨[⟨NodeExternalIP, a⟩], [⟨NodeReady, ConditionTrue⟩]⟩

/-- A node with no readiness condition at all, carrying one external
and one internal address. -/
def noCondNode (ext internal : String) : Node :=
  ⟨[⟨NodeExternalIP, ext⟩, ⟨NodeInternalIP, internal⟩], []⟩

/-- The policy with both flags unset: `SKIP_EXTERNAL_IP` and
`USE_INTERNAL_IP` absent. -/
def defaultPolicy : Policy := ⟨false, false⟩

/-! Order-theoretic facts about the string order `sort.Strings` uses,
needed to reason about `sortStrings`. -/

theorem lexLe_cons_iff (a b : Char) (as bs : List Char) :
    lexLe (a :: as) (b :: bs) = true ↔ a < b ∨ (a = b ∧ lexLe as bs = true) := by
  by_cases hab : a < b
  · simp [lexLe, hab]
  · by_cases hba : b < a
    · have hne : a ≠ b := by
        rintro rfl
        exact absurd hba (lt_irrefl a)
      simp [lexLe, hab, hba, hne]
    · have heq : a = b := le_antisymm (le_of_not_lt hba) (le_of_not_lt hab)
      simp [lexLe, hab, hba, heq]

theorem lexLe_total : ∀ as bs : List Char, lexLe as bs = true ∨ lexLe bs as = true
  | [], _ => Or.inl rfl
  | _ :: _, [] => Or.inr rfl
  | a :: as, b :: bs => by
    rcases lt_trichotomy a b with h | h | h
    · exact Or.inl ((lexLe_cons_iff a b as bs).mpr (Or.inl h))
    · subst h
      rcases lexLe_total as bs with ih | ih
      · exact Or.inl ((lexLe_cons_iff a a as bs).mpr (Or.inr ⟨rfl, ih⟩))
      · exact Or.inr ((lexLe_cons_iff a a bs as).mpr (Or.inr ⟨rfl, ih⟩))
    · exact Or.inr ((lexLe_cons_iff b a bs as).mpr (Or.inl h))

theorem lexLe_trans :
    ∀ as bs cs : List Char, lexLe as bs = true → lexLe bs cs = true → lexLe as cs = true
  | [], _, _, _, _ => rfl
  | _ :: _, [], _, h, _ => by simp [lexLe] at h
  | _ :: _, _ :: _, [], _, h => by simp [lexLe] at h
  | a :: as, b :: bs, c :: cs, h1, h2 => by
    rcases (lexLe_cons_iff a b as bs).mp h1 with hab | ⟨hab, h1b⟩
    · rcases (lexLe_cons_iff b c bs cs).mp h2 with hbc | ⟨hbc, h2b⟩
      · exact (lexLe_cons_iff a c as cs).mpr (Or.inl (hab.trans hbc))
      · exact (lexLe_cons_iff a c as cs).mpr (Or.inl (hbc ▸ hab))
    · subst hab
      rcases (lexLe_cons_iff a c bs cs).mp h2 with hbc | ⟨hbc, h2b⟩
      · exact (lexLe_cons_iff a c as cs).mpr (Or.inl hbc)
      · exact (lexLe_cons_iff a c as cs).mpr
          (Or.inr ⟨hbc, lexLe_trans as bs cs h1b h2b⟩)

theorem lexLe_antisymm : ∀ as bs : List Char, lexLe as bs = true → lexLe bs as = true → as = bs
  | [], [], _, _ => rfl
  | [], _ :: _, _, h => by simp [lexLe] at h
  | _ :: _, [], h, _ => by simp [lexLe] at h
  | a :: as, b :: bs, h1, h2 => by
    rcases (lexLe_cons_iff a b as bs).mp h1 with hab | ⟨hab, h1b⟩
    · rcases (lexLe_cons_iff b a bs as).mp h2 with hba | ⟨hba, h2b⟩
      · exact absurd (hab.trans hba) (lt_irrefl a)
      · exact absurd hab (hba ▸ lt_irrefl b)
    · subst hab
      rcases (lexLe_cons_iff a a bs as).mp h2 with hba | ⟨hba, h2b⟩
      · exact absurd hba (lt_irrefl a)
      · exact congrArg (a :: ·) (lexLe_antisymm as bs h1b h2b)

instance : IsTotal String StrLe :=
  ⟨fun a b => lexLe_total a.data b.data⟩

instance : IsTrans String StrLe :=
  ⟨fun a b c => lexLe_trans a.data b.data c.data⟩

instance : IsAntisymm String StrLe :=
  ⟨fun a b h1 h2 => String.ext_iff.mpr (lexLe_antisymm a.data b.data h1 h2)⟩

theorem sortStrings_sorted (l : List String) : (sortStrings l).Sorted StrLe :=
  List.sorted_insertionSort StrLe l

theorem sortStrings_perm (l : List String) : (sortStrings l).Perm l :=
  List.perm_insertionSort StrLe l

theorem sortStrings_eq_of_perm {l₁ l₂ : List String} (h : l₁.Perm l₂) :
    sortStrings l₁ = sortStrings l₂ :=
  List.eq_of_perm_of_sorted
    ((sortStrings_perm l₁).trans (h.trans (sortStrings_perm l₂).symm))
    (sortStrings_sorted l₁) (sortStrings_sorted l₂)

/-! The claims. -/

/-- Claim C1: the spec says a failed node enumeration abandons the
pass with the stored set unchanged, but the code only logs the error
(main.go:119-121 has no `return`) and falls through with the nil node
slice.  At the failing input — the lister returns an error while the
stored set is `["1.2.3.4"]` — the pass proceeds: it aggregates the
empty set from the nil slice, detects a change, overwrites the stored
set with `[]`, and invokes `sync` with the empty desired set. -/
theorem C1_list_error_pass_not_abandoned :
    resync defaultPolicy none (fun _ => true) ⟨["1.2.3.4"]⟩ = (⟨[]⟩, some ([], true)) := by
  decide

/-- Claim C2, counterexample: two distinct ready nodes reporting the
same external address `1.1.1.1` produce an aggregated set with a
duplicate — `sort.Strings` (main.go:147) sorts but never
deduplicates, refuting "contains no duplicate address strings". -/
theorem C2_counterexample_duplicate_addresses :
    aggregateIPs [extNode "1.1.1.1", extNode "1.1.1.1"] defaultPolicy
      = ["1.1.1.1", "1.1.1.1"]
    ∧ ¬ (aggregateIPs [extNode "1.1.1.1", extNode "1.1.1.1"] defaultPolicy).Nodup := by
  decide

/-- Claim C2, amended: for every node list and policy the aggregated
set is sorted lexicographically, but duplicates are NOT removed: the
result is a permutation of the collected address list, multiplicities
included. -/
theorem C2_sorted_but_duplicates_kept (nodes : List Node) (p : Policy) :
    (aggregateIPs nodes p).Sorted StrLe
    ∧ (aggregateIPs nodes p).Perm (collectedIPs nodes p) :=
  ⟨sortStrings_sorted _, sortStrings_perm _⟩

/-- Claim C3, counterexample: the stored set `["a", "b"]` and the
newly aggregated set `["a,b"]` differ as lists, yet the pass returns
without storing the new set and without invoking reconciliation,
because their comma-joins coincide — refuting "if they differ it
stores the new set and invokes reconciliation". -/
theorem C3_counterexample_join_collision :
    aggregateIPs [extNode "a,b"] defaultPolicy ≠ ["a", "b"]
    ∧ resync defaultPolicy (some [extNode "a,b"]) (fun _ => true) ⟨["a", "b"]⟩
        = (⟨["a", "b"]⟩, none) := by
  decide

/-- Claim C3, amended: the change detector compares the comma-joins of
the new and stored sets (main.go:149): the pass skips reconciliation
exactly when the joins are equal; after any pass the stored set joins
to the same string as the newly aggregated set; hence a second
consecutive pass over the same node list never invokes reconciliation
— two passes yielding the same desired set trigger at most one
reconciliation call. -/
theorem C3_change_detection_by_join (p : Policy) (e : Option (List Node))
    (ok : List String → Bool) (st : SyncState) :
    ((resync p e ok st).2 = none ↔
      joinComma (aggregateIPs (e.getD []) p) = joinComma st.lastIPs)
    ∧ joinComma (resync p e ok st).1.lastIPs = joinComma (aggregateIPs (e.getD []) p)
    ∧ (resync p e ok ((resync p e ok st).1)).2 = none := by
  by_cases h : joinComma (aggregateIPs (e.getD []) p) = joinComma st.lastIPs
  · exact ⟨by simp [resync, h], by simp [resync, h], by simp [resync, h]⟩
  · exact ⟨by simp [resync, h], by simp [resync, h], by simp [resync, h]⟩

/-- Claim C4, counterexample: a pass whose `sync` call fails (the
desired set `["1.2.3.4"]` was stored at main.go:153 before `sync` ran)
is followed by a pass aggregating the same desired set, and that
second pass skips as unchanged instead of recomputing and reapplying
the diff — the failed name is NOT retried while the desired set stays
the same. -/
theorem C4_counterexample_failed_sync_not_retried :
    (resync defaultPolicy (some [extNode "1.2.3.4"]) (fun _ => false) initialState).2
      = some (["1.2.3.4"], false)
    ∧ (resync defaultPolicy (some [extNode "1.2.3.4"]) (fun _ => false)
        (resync defaultPolicy (some [extNode "1.2.3.4"]) (fun _ => false) initialState).1).2
      = none := by
  decide

/-- Claim C4, amended: the stored state of a pass is independent of
whether `sync` succeeded (its error is only logged, main.go:156-158,
and `lastIPs` was already overwritten at main.go:153), so a subsequent
pass over the same node list performs no reconciliation regardless of
the previous outcome: retry happens only on a pass whose desired set
differs in comma-join from the stored one. -/
theorem C4_state_independent_of_sync_result (p : Policy) (e : Option (List Node))
    (ok ok2 : List String → Bool) (st : SyncState) :
    (resync p e ok st).1 = (resync p e ok2 st).1
    ∧ (resync p e ok2 ((resync p e ok st).1)).2 = none := by
  by_cases h : joinComma (aggregateIPs (e.getD []) p) = joinComma st.lastIPs
  · exact ⟨by simp [resync, h], by simp [resync, h]⟩
  · exact ⟨by simp [resync, h], by simp [resync, h]⟩

/-- Claim C5: with `useInternal = true` and `skipExternal = false`, an
address belongs to the aggregated set exactly when it is an external
address of a ready node, or the external collection over all ready
nodes is empty and it is an internal address of a ready node —
internal addresses are never consulted once any ready node contributed
an external address. -/
theorem C5_internal_fallback_iff_no_external (nodes : List Node) (a : String) :
    a ∈ aggregateIPs nodes ⟨false, true⟩ ↔
      a ∈ collectAddrs nodes NodeExternalIP
      ∨ (collectAddrs nodes NodeExternalIP = []
          ∧ a ∈ collectAddrs nodes NodeInternalIP) := by
  rw [aggregateIPs, (sortStrings_perm _).mem_iff]
  by_cases h : collectAddrs nodes NodeExternalIP = []
  · simp [collectedIPs, h]
  · simp [collectedIPs, h, List.length_eq_zero]

/-- Claim C6: the aggregation step is permutation-invariant — any two
node lists that are permutations of each other yield the identical
address sequence, for every policy. -/
theorem C6_aggregation_permutation_invariant (nodes nodes2 : List Node) (p : Policy)
    (h : nodes.Perm nodes2) :
    aggregateIPs nodes p = aggregateIPs nodes2 p := by
  have hcol : ∀ t, (collectAddrs nodes t).Perm (collectAddrs nodes2 t) :=
    fun t => h.flatMap_right _
  apply sortStrings_eq_of_perm
  unfold collectedIPs
  set ips1 := if !p.skipExternal then collectAddrs nodes NodeExternalIP else [] with h1
  set ips2 := if !p.skipExternal then collectAddrs nodes2 NodeExternalIP else [] with h2
  have hp : ips1.Perm ips2 := by
    rw [h1, h2]
    cases p.skipExternal <;> simp
    exact hcol NodeExternalIP
  by_cases hcond : (p.useInternal && (ips1.length == 0)) = true
  · have hcond2 : (p.useInternal && (ips2.length == 0)) = true := by
      rw [← hp.length_eq]
      exact hcond
    rw [if_pos hcond, if_pos hcond2]
    exact hp.append (hcol NodeInternalIP)
  · have hcond2 : ¬ (p.useInternal && (ips2.length == 0)) = true := by
      rw [← hp.length_eq]
      exact hcond
    rw [if_neg hcond, if_neg hcond2]
    exact hp

/-- Witness for C6 at a concrete input: swapping two ready nodes
leaves the aggregated sequence unchanged. -/
theorem C6_aggregation_permutation_invariant_witness :
    aggregateIPs [extNode "9.9.9.9", extNode "1.2.3.4"] defaultPolicy
      = aggregateIPs [extNode "1.2.3.4", extNode "9.9.9.9"] defaultPolicy :=
  C6_aggregation_permutation_invariant
    [extNode "9.9.9.9", extNode "1.2.3.4"] [extNode "1.2.3.4", extNode "9.9.9.9"]
    defaultPolicy (by decide)

/-- Claim C7: a node whose readiness check fails (no `Ready`-type
condition, or not `True`-valued) contributes nothing to the aggregated
set no matter which addresses it carries; a ready node contributes
every address of the selected type to the collection phase. -/
theorem C7_readiness_gating (n : Node) (rest : List Node) (p : Policy) (t : String) :
    (nodeIsReady n = false → aggregateIPs (n :: rest) p = aggregateIPs rest p)
    ∧ (nodeIsReady n = true →
        collectAddrs (n :: rest) t = nodeAddrsOfType n t ++ collectAddrs rest t) := by
  constructor
  · intro h
    have hc : ∀ t2, collectAddrs (n :: rest) t2 = collectAddrs rest t2 := by
      intro t2
      simp [collectAddrs, h]
    simp [aggregateIPs, collectedIPs, hc]
  · intro h
    simp [collectAddrs, h]

/-- Witness for C7: a conditionless node with populated external and
internal addresses contributes nothing, and a ready node's external
addresses all enter the collection. -/
theorem C7_readiness_gating_witness :
    aggregateIPs [noCondNode "9.9.9.9" "10.0.0.1"] defaultPolicy
      = aggregateIPs [] defaultPolicy
    ∧ collectAddrs [extNode "1.2.3.4"] NodeExternalIP
        = nodeAddrsOfType (extNode "1.2.3.4") NodeExternalIP
          ++ collectAddrs [] NodeExternalIP :=
  ⟨(C7_readiness_gating (noCondNode "9.9.9.9" "10.0.0.1") [] defaultPolicy
      NodeExternalIP).1 (by decide),
   (C7_readiness_gating (extNode "1.2.3.4") [] defaultPolicy NodeExternalIP).2 (by decide)⟩

set_option maxRecDepth 4000 in
/-- Claim C8 (the `sync` function is modelled from the spec, being
outside src/): the plan for desired `{1.2.3.4, 5.6.7.8}` against
existing records `{9.9.9.9, 1.2.3.4}` is exactly
`[delete(9.9.9.9), create(5.6.7.8)]`, and in general a create appears
for exactly the desired addresses absent from the existing contents, a
delete for exactly the existing records whose content is not desired,
and an update for exactly the records kept whose ttl or proxy flag
differs from configuration — emitted in the order deletes, creates,
updates. -/
theorem C8_reconcile_plan_spec (d : List String) (ex : List ProviderRecord)
    (t : Nat) (pr : Bool) (c : String) (i : String) :
    reconcilePlan ["1.2.3.4", "5.6.7.8"]
        [⟨"rec-a", "9.9.9.9", 120, false⟩, ⟨"rec-b", "1.2.3.4", 120, false⟩] 120 false
      = [DnsOp.delete "rec-a", DnsOp.create "5.6.7.8"]
    ∧ (DnsOp.create c ∈ reconcilePlan d ex t pr ↔
        c ∈ d ∧ c ∉ ex.map fun r => r.content)
    ∧ (DnsOp.delete i ∈ reconcilePlan d ex t pr ↔
        ∃ r ∈ ex, r.id = i ∧ r.content ∉ d)
    ∧ (DnsOp.update i ∈ reconcilePlan d ex t pr ↔
        ∃ r ∈ ex, r.id = i ∧ r.content ∈ d ∧ (r.ttl ≠ t ∨ r.proxied ≠ pr)) := by
  refine ⟨by decide, ?_, ?_, ?_⟩ <;>
    simp [reconcilePlan, List.mem_filter]
  · tauto
  · constructor
    · rintro ⟨a, ⟨ha, hc, hd⟩, hid⟩
      exact ⟨a, ha, hid, hc, hd⟩
    · rintro ⟨r, hr, hid, hc, hd⟩
      exact ⟨r, ⟨hr, hc, hd⟩, hid⟩

/-- Claim C9: starting from the process-start state (empty stored
set), any sequence of passes each of which aggregates the empty
desired set leaves the state unchanged and never invokes
reconciliation — provider records are untouched until some pass first
produces a non-empty set. -/
theorem C9_initial_empty_set_no_reconciliation (p : Policy) (ok : List String → Bool)
    (events : List (Option (List Node)))
    (h : ∀ e ∈ events, aggregateIPs (e.getD []) p = []) :
    runResync p ok events initialState = (initialState, []) := by
  induction events with
  | nil => rfl
  | cons e es ih =>
    have he : aggregateIPs (e.getD []) p = [] := h e (List.mem_cons_self e es)
    have hr : resync p e ok initialState = (initialState, none) := by
      simp [resync, he, initialState]
    rw [runResync, hr]
    exact ih fun e2 he2 => h e2 (List.mem_cons_of_mem e he2)

/-- Witness for C9: one pass listing zero nodes right after start
invokes no reconciliation and leaves the initial state in place. -/
theorem C9_initial_empty_set_no_reconciliation_witness :
    (∀ e ∈ [some ([] : List Node)], aggregateIPs (e.getD []) defaultPolicy = [])
    ∧ runResync defaultPolicy (fun _ => true) [some []] initialState
        = (initialState, []) :=
  ⟨by decide,
   C9_initial_empty_set_no_reconciliation defaultPolicy (fun _ => true)
     [some []] (by decide)⟩

/-- Claim C10: the change comparison is equality of comma-joined
strings, not of the lists: the stored set `["x", "y"]` and the newly
aggregated set `["x,y"]` differ as lists of strings, yet the second
pass is suppressed as unchanged because both join to `"x,y"`. -/
theorem C10_join_comparison_collision :
    (["x,y"] : List String) ≠ ["x", "y"]
    ∧ aggregateIPs [extNode "x,y"] defaultPolicy = ["x,y"]
    ∧ joinComma ["x,y"] = joinComma ["x", "y"]
    ∧ (resync defaultPolicy (some [extNode "x,y"]) (fun _ => true) ⟨["x", "y"]⟩).2 = none := by
  decide

end CloudflareSync
